import Mathlib

/-! Verification development for the ViT CIFAR-10 training script
(cifar10.py).  The model components (PreNorm, FeedForward, Attention,
Transformer, PatchEmbed, AttnPooler, VIT), the sharding-wrapper
application sequence and the per-rank output behaviour of the training
script are shallowly embedded; floating-point tensors are modelled as
(nested) lists of real numbers, and einops rearrangements by explicit
index arithmetic.  Theorems at the end check the specification claims
against this embedding. -/

namespace Cifar10

/-! Section: PreNorm (cifar10.py, lines 34-40)

A PreNorm module stores a normalisation sub-module and a wrapped
sub-module; its forward pass is fn(norm(x)).  Both sub-modules are kept
abstract as functions on an arbitrary value type, exactly as PreNorm
itself treats them. -/

structure PreNorm (V : Type) where
  norm : V → V
  fn : V → V

instance {V : Type} : Inhabited (PreNorm V) := ⟨⟨id, id⟩⟩

/-- PreNorm.forward: return self.fn(self.norm(x)).  Note there is no
residual addition here. -/
def PreNorm.forward {V : Type} (p : PreNorm V) (x : V) : V :=
  p.fn (p.norm x)

/-! Section: Transformer (cifar10.py, lines 84-99)

The constructor builds two ModuleLists (attentions and ffns) of the same
depth; forward iterates i over range(len(attentions)) doing
x = attentions[i](x) + x followed by x = ffns[i](x) + x. -/

structure Transformer (V : Type) where
  attentions : List (PreNorm V)
  ffns : List (PreNorm V)

/-- Transformer.forward: the loop
for i in range(len(self.attentions)):
    x = self.attentions[i](x) + x
    x = self.ffns[i](x) + x
translated as a fold over the index range. -/
def Transformer.forward {V : Type} [Add V] (t : Transformer V) (x : V) : V :=
  (List.range t.attentions.length).foldl
    (fun y i =>
      let y1 := (t.attentions.getD i default).forward y + y
      (t.ffns.getD i default).forward y1 + y1) x

/-- Spec-side description of one transformer block (section 4.5 of the
spec): x is updated to x + Attention(PreNorm(x)) and then to
x + FeedForward(PreNorm(x)), the residual additions being written by the
caller with x on the left. -/
def specBlockStep {V : Type} [Add V] (attn ffn : PreNorm V) (x : V) : V :=
  let x1 := x + attn.forward x
  x1 + ffn.forward x1

/-- Spec-side description of the transformer: the blocks are applied
strictly in order, block i+1 consuming block i's output exclusively. -/
def specTransformerForward {V : Type} [Add V]
    (blocks : List (PreNorm V × PreNorm V)) (x : V) : V :=
  blocks.foldl (fun y b => specBlockStep b.1 b.2 y) x

/-- A concrete two-module transformer over natural numbers, used to
instantiate theorems on explicit data. -/
def sampleTransformer : Transformer ℕ :=
  { attentions := [⟨fun v => v + 1, fun v => 2 * v⟩],
    ffns := [⟨id, fun v => v * v⟩] }

/-! Section: PatchEmbed (cifar10.py, lines 117-145)

An image batch is a nested list indexed [batch][channel][row][column].
The einops rearrangement
  b c (h p1) (w p2) -> b (h w) (p1 p2 c)
is embedded by explicit index arithmetic: output position n = hi*w + wi
holds the flattening of the (hi, wi) patch in (p1, p2, c) order, so
feature index f decomposes as f = (i*p2 + j)*C + c. -/

/-- One scalar of an image (channel c, row i, column j), with a default
for out-of-range indices. -/
def imageAt {α : Type} [Inhabited α] (img : List (List (List α)))
    (c i j : ℕ) : α :=
  ((img.getD c []).getD i []).getD j default

/-- The (p1, p2, c)-ordered flattening of the non-overlapping patch with
patch coordinates (hi, wi) of a single image, as produced for one output
position by the einops rearrangement in PatchEmbed.forward. -/
def flattenPatch {α : Type} [Inhabited α] (p1 p2 : ℕ)
    (img : List (List (List α))) (hi wi : ℕ) : List α :=
  (List.range (p1 * p2 * img.length)).map (fun f =>
    imageAt img (f % img.length)
      (hi * p1 + f / (img.length * p2))
      (wi * p2 + (f / img.length) % p2))

/-- The einops rearrangement of cifar10.py line 141: every image of the
batch becomes the list of its flattened non-overlapping patches, in
row-major patch order. -/
def patchRearrange {α : Type} [Inhabited α] (p1 p2 : ℕ)
    (x : List (List (List (List α)))) : List (List (List α)) :=
  x.map (fun img =>
    let H := (img.headD []).length
    let W := ((img.headD []).headD []).length
    (List.range (H / p1 * (W / p2))).map (fun n =>
      flattenPatch p1 p2 img (n / (W / p2)) (n % (W / p2))))

/-- A PatchEmbed module: patch sizes plus the three per-position
sub-modules (pre_norm, proj, post_norm), kept abstract as functions on
feature vectors exactly as the module stores them (the norms may be
Identity and proj is a learned Linear). -/
structure PatchEmbed (α : Type) where
  patch_height : ℕ
  patch_width : ℕ
  pre_normf : List α → List α
  proj : List α → List α
  post_normf : List α → List α

/-- PatchEmbed.forward: rearrange into flattened patches, then apply
pre_norm, proj and post_norm position-wise (each of those torch modules
acts on the last tensor dimension only). -/
def PatchEmbed.forward {α : Type} [Inhabited α] (pe : PatchEmbed α)
    (x : List (List (List (List α)))) : List (List (List α)) :=
  (patchRearrange pe.patch_height pe.patch_width x).map (fun seq =>
    seq.map (fun p => pe.post_normf (pe.proj (pe.pre_normf p))))

/-- Well-formedness of a [B, C, H, W] image batch as a nested list. -/
def Shaped4 {α : Type} (x : List (List (List (List α)))) (B C H W : ℕ) : Prop :=
  x.length = B ∧ ∀ img ∈ x, img.length = C ∧
    ∀ ch ∈ img, ch.length = H ∧ ∀ row ∈ ch, row.length = W

instance {α : Type} (x : List (List (List (List α)))) (B C H W : ℕ) :
    Decidable (Shaped4 x B C H W) := by
  unfold Shaped4; infer_instance

/-- A concrete CIFAR-sized image batch: one image, 3 channels, 32 rows,
32 columns, with distinct natural-number entries. -/
def sampleImageBatch : List (List (List (List ℕ))) :=
  [(List.range 3).map (fun c =>
    (List.range 32).map (fun i =>
      (List.range 32).map (fun j => c * 10000 + i * 100 + j)))]

/-- A concrete PatchEmbed with 4x4 patches; the per-position sub-modules
are arbitrary concrete functions. -/
def samplePatchEmbed : PatchEmbed ℕ :=
  { patch_height := 4, patch_width := 4,
    pre_normf := id,
    proj := fun p => [p.sum],
    post_normf := id }

/-! Section: Shape-level semantics of the VIT forward pass
(cifar10.py, lines 117-145 and 147-191)

The shape errors a forward call can raise are modelled explicitly: the
einops rearrangement of line 141 rejects a height or width that is not a
multiple of the patch size, the Linear proj of line 143 rejects a last
dimension different from patch_dim, and the broadcast addition of
line 186 rejects incompatible sequence axes.  Torch broadcasting accepts
two axis lengths when they are equal or either is 1, the result being
the larger one. -/

inductive ShapeError where
  | rearrangeMismatch : ShapeError
  | linearMismatch : ShapeError
  | broadcastMismatch : ShapeError
  | normMismatch : ShapeError
deriving DecidableEq

/-- Static description of a PatchEmbed module: constructor lines 119-138
(patch_dim of the proj Linear is channels * patch_h * patch_w). -/
structure PatchEmbedArch where
  channels : ℕ
  patch_h : ℕ
  patch_w : ℕ
  out_dim : ℕ
deriving DecidableEq

/-- Shape semantics of PatchEmbed.forward on a [B, C, H, W] input: the
einops rearrangement requires H and W to be multiples of the patch
sizes and yields last dimension patch_h * patch_w * C, which the proj
Linear requires to equal its patch_dim = channels * patch_h * patch_w;
the result is [B, (H/patch_h)*(W/patch_w), out_dim]. -/
def patchEmbedShape (pe : PatchEmbedArch) (B C H W : ℕ) :
    Except ShapeError (ℕ × ℕ × ℕ) :=
  if H % pe.patch_h = 0 ∧ W % pe.patch_w = 0 then
    if pe.patch_h * pe.patch_w * C = pe.channels * pe.patch_h * pe.patch_w then
      Except.ok (B, H / pe.patch_h * (W / pe.patch_w), pe.out_dim)
    else Except.error ShapeError.linearMismatch
  else Except.error ShapeError.rearrangeMismatch

/-- Static description of a VIT model as built by its constructor. -/
structure VITArch where
  patch_embed : PatchEmbedArch
  num_patches : ℕ
  pos_dim : ℕ
  num_layers : ℕ
  heads : ℕ
  head_dim : ℕ
  mlp_dim : ℕ
  dropout : ℚ
  num_classes : ℕ
deriving DecidableEq

/-- VIT.__init__ (cifar10.py, lines 149-182) as a function of the
constructor arguments, in their source order.  The patch embedding is
built with channels := 3 (line 164, ignoring in_channels), out_dim =
head_dim * heads, post_norm only; pos_embs has
(image_size / patch_size)^2 rows of width head_dim * heads; emb_dropout
is accepted but used nowhere. -/
def mkVIT (num_layers head_dim heads mlp_mult : ℕ) (dropout emb_dropout : ℚ)
    (num_classes in_channels patch_size image_size : ℕ) : VITArch :=
  { patch_embed :=
      { channels := 3, patch_h := patch_size, patch_w := patch_size,
        out_dim := head_dim * heads },
    num_patches := (image_size / patch_size) ^ 2,
    pos_dim := head_dim * heads,
    num_layers := num_layers,
    heads := heads,
    head_dim := head_dim,
    mlp_dim := head_dim * heads * mlp_mult,
    dropout := dropout,
    num_classes := num_classes }

/-- Length of a broadcast axis once the two lengths are known to be
compatible (equal, or one of them 1). -/
def broadcastLen (a b : ℕ) : ℕ := if a = 1 then b else a

/-- Shape semantics of VIT.forward (lines 184-191): patch_embed, then
the broadcast addition of pos_embs.unsqueeze(0), then the transformer
and out_norm (which require the feature axis to equal the LayerNorm
width head_dim * heads and preserve [B, N, D]), then the pooler
([B, N, D] to [B, D]) and proj_out ([B, D] to [B, num_classes]). -/
def vitForwardShape (v : VITArch) (B C H W : ℕ) : Except ShapeError (ℕ × ℕ) :=
  (patchEmbedShape v.patch_embed B C H W).bind (fun s =>
    let n := s.2.1
    let D := s.2.2
    if n = v.num_patches ∨ n = 1 ∨ v.num_patches = 1 then
      if D = v.pos_dim ∨ D = 1 ∨ v.pos_dim = 1 then
        if broadcastLen D v.pos_dim = v.head_dim * v.heads then
          Except.ok (s.1, v.num_classes)
        else Except.error ShapeError.normMismatch
      else Except.error ShapeError.broadcastMismatch
    else Except.error ShapeError.broadcastMismatch)

/-- Whether an Except value is a success. -/
def isOkE {ε α : Type} : Except ε α → Bool
  | Except.ok _ => true
  | Except.error _ => false

/-- The VIT model of the script: net = VIT() with all constructor
defaults (line 222 with lines 149-161). -/
def scriptVIT : VITArch := mkVIT 8 64 8 4 (1 / 10) (1 / 10) 10 3 4 32

/-- Broadcast addition x + pos (for the matching-shape case, the one the
script exercises; general broadcasting is treated by the shape-level
semantics): pos is added to every batch element, position-wise and
feature-wise. -/
def addBroadcast {α : Type} [Add α] (x : List (List (List α)))
    (pos : List (List α)) : List (List (List α)) :=
  x.map (fun seq => List.zipWith (fun p q => List.zipWith (fun u v => u + v) p q) seq pos)

/-- A VIT module at value level: its sub-modules, kept abstract as the
functions they compute, plus the positional-embedding table. -/
structure VITModel (α : Type) where
  patch_embedf : List (List (List (List α))) → List (List (List α))
  pos_embs : List (List α)
  transformerf : List (List (List α)) → List (List (List α))
  out_normf : List (List (List α)) → List (List (List α))
  poolerf : List (List (List α)) → List (List α)
  proj_outf : List (List α) → List (List α)

/-- VIT.forward (cifar10.py, lines 184-191). -/
def VITModel.forward {α : Type} [Add α] (m : VITModel α)
    (pixel_values : List (List (List (List α)))) : List (List α) :=
  let x := m.patch_embedf pixel_values
  let h := addBroadcast x m.pos_embs
  let h2 := m.transformerf h
  let h3 := m.out_normf h2
  let h4 := m.poolerf h3
  m.proj_outf h4

/-! Section: Attention at value level (cifar10.py, lines 55-82)

A single batch element is a matrix [N, dim] given as a list of rows;
every tensor operation of Attention.forward acts batch-element-wise, so
the embedding works on one batch element. -/

/-- A vector of real scalars. -/
abbrev Vec := List ℝ

/-- A matrix of real scalars, as a list of rows. -/
abbrev Mat := List (List ℝ)

/-- Dot product of two rows. -/
def dotRR (a b : Vec) : ℝ := (List.zipWith (fun u v => u * v) a b).sum

/-- torch.matmul(A, B.transpose(-1, -2)): entry (i, j) is the dot
product of row i of A with row j of B. -/
def matmulT (A B : Mat) : Mat := A.map (fun ar => B.map (fun br => dotRR ar br))

/-- Elementwise multiplication of a matrix by a scalar on the right. -/
def matScale (M : Mat) (s : ℝ) : Mat := M.map (fun r => r.map (fun v => v * s))

/-- Transpose of a list-of-rows matrix. -/
def transposeM (M : Mat) : Mat :=
  (List.range (M.headD []).length).map (fun j => M.map (fun r => r.getD j 0))

/-- torch.matmul(A, B). -/
def matmul (A B : Mat) : Mat := matmulT A (transposeM B)

/-- nn.Softmax(dim = -1) on one row (line 64): exp of each entry divided
by the sum of exps of the row. -/
noncomputable def softmax (v : Vec) : Vec :=
  v.map (fun x => Real.exp x / (v.map Real.exp).sum)

/-- nn.Softmax(dim = -1) on a stack of rows. -/
noncomputable def softmaxRows (M : Mat) : Mat := M.map softmax

/-- nn.Linear without bias (to_qkv, line 65): y = x W^T row-wise. -/
def linearNoBias (W : Mat) (x : Mat) : Mat :=
  x.map (fun row => W.map (fun wr => dotRR wr row))

/-- Addition of two vectors. -/
def vecAdd (a b : Vec) : Vec := List.zipWith (fun u v => u + v) a b

/-- Split one row into the 3 equal chunks of .chunk(3, dim = -1). -/
def chunk3 (row : Vec) : Vec × Vec × Vec :=
  let k := row.length / 3
  (row.take k, (row.drop k).take k, row.drop (2 * k))

/-- Head h of the rearrangement b n (h d) -> b h n d: columns
[h*d, h*d + d) of every row. -/
def headSlice (h d : ℕ) (m : Mat) : Mat :=
  m.map (fun row => (row.drop (h * d)).take d)

/-- An Attention module.  to_out is some (weight, bias) for the
Sequential(Linear, Dropout) branch and none for nn.Identity(). -/
structure Attention where
  heads : ℕ
  dim_head : ℕ
  scale : ℝ
  to_qkv : Mat
  to_out : Option (Mat × Vec)

/-- Attention.__init__ (lines 56-70): scale = dim_head ** -0.5, and
to_out is the Linear projection (with Dropout) unless
heads == 1 and dim_head == dim, in which case it is Identity. -/
noncomputable def mkAttention (dim heads dim_head : ℕ)
    (wqkv wout : Mat) (bout : Vec) : Attention :=
  let project_out : Bool := !(heads == 1 && dim_head == dim)
  { heads := heads, dim_head := dim_head,
    scale := (dim_head : ℝ) ^ (-(1 : ℝ) / 2),
    to_qkv := wqkv,
    to_out := if project_out then some (wout, bout) else none }

/-- Application of to_out (line 82): Identity returns its input; the
projection branch applies the Linear (Dropout is the identity outside
training). -/
def applyToOut (t : Option (Mat × Vec)) (m : Mat) : Mat :=
  match t with
  | none => m
  | some wb => m.map (fun row => vecAdd (wb.1.map (fun wr => dotRR wr row)) wb.2)

/-- The query matrix of head h (lines 73-74). -/
def Attention.qmat (a : Attention) (x : Mat) (h : ℕ) : Mat :=
  headSlice h a.dim_head ((linearNoBias a.to_qkv x).map (fun r => (chunk3 r).1))

/-- The key matrix of head h (lines 73-74). -/
def Attention.kmat (a : Attention) (x : Mat) (h : ℕ) : Mat :=
  headSlice h a.dim_head ((linearNoBias a.to_qkv x).map (fun r => (chunk3 r).2.1))

/-- The value matrix of head h (lines 73-74). -/
def Attention.vmat (a : Attention) (x : Mat) (h : ℕ) : Mat :=
  headSlice h a.dim_head ((linearNoBias a.to_qkv x).map (fun r => (chunk3 r).2.2))

/-- dots = torch.matmul(q, k.transpose(-1, -2)) * self.scale (line 76),
for head h. -/
def Attention.dots (a : Attention) (x : Mat) (h : ℕ) : Mat :=
  matScale (matmulT (a.qmat x h) (a.kmat x h)) a.scale

/-- attn = self.attend(dots) (line 78), for head h. -/
noncomputable def Attention.attnWeights (a : Attention) (x : Mat) (h : ℕ) : Mat :=
  softmaxRows (a.dots x h)

/-- out = torch.matmul(attn, v) (line 80), for head h. -/
noncomputable def Attention.headOut (a : Attention) (x : Mat) (h : ℕ) : Mat :=
  matmul (a.attnWeights x h) (a.vmat x h)

/-- rearrange(out, b h n d -> b n (h d)) (line 81): position n is the
concatenation over heads of row n of each head's output. -/
noncomputable def Attention.merged (a : Attention) (x : Mat) : Mat :=
  (List.range x.length).map (fun n =>
    ((List.range a.heads).map (fun h => (a.headOut x h).getD n [])).flatten)

/-- Attention.forward (lines 72-82). -/
noncomputable def Attention.forward (a : Attention) (x : Mat) : Mat :=
  applyToOut a.to_out (a.merged x)

/-- Spec-side numerically stabilised softmax (section 4.2 of the spec):
the maximum of the row is subtracted from every entry before
exponentiation. -/
noncomputable def softmaxStable (v : Vec) : Vec :=
  let M := v.foldr max (v.headD 0)
  v.map (fun x => Real.exp (x - M) / (v.map (fun y => Real.exp (y - M))).sum)

/-- Concrete weights for instantiating the attention theorems:
a 3x1 to_qkv weight for dim = 1, heads = 1, dim_head = 1. -/
def sampleWqkv : Mat := [[1], [1], [1]]

/-- Concrete 1x1 output-projection weight. -/
def sampleWout : Mat := [[1]]

/-- Concrete output-projection bias. -/
def sampleBout : Vec := [0]

/-- Concrete 2x2 identity weight, for a dim = 2 attention. -/
def sampleId2 : Mat := [[1, 0], [0, 1]]

/-! Section: Sharding-wrapper application (cifar10.py, lines 226-238, C8) -/

/-- What a fully_shard call wraps. -/
inductive WrapTarget where
  | attn : ℕ → WrapTarget
  | ffn : ℕ → WrapTarget
  | root : WrapTarget
deriving DecidableEq

/-- One fully_shard call with the reshard_after_forward flag it was
given. -/
structure WrapEvent where
  target : WrapTarget
  reshard_after_forward : Bool
deriving DecidableEq

/-- The reshard_after_forward entry of fsdp_config (line 228). -/
def fsdpReshardAfterForward : Bool := true

/-- The sequence of fully_shard calls of lines 231-238: one per
attention block of net.transformer.attentions in order, then one per
feed-forward block of net.transformer.ffns in order, then one for the
whole model, every call taking **fsdp_config. -/
def shardingEvents (numAttentions numFfns : ℕ) : List WrapEvent :=
  ((List.range numAttentions).map (fun i =>
      ⟨WrapTarget.attn i, fsdpReshardAfterForward⟩))
    ++ ((List.range numFfns).map (fun i =>
      ⟨WrapTarget.ffn i, fsdpReshardAfterForward⟩))
    ++ [⟨WrapTarget.root, fsdpReshardAfterForward⟩]

/-! Section: Per-rank side effects of the script (C9)

Dataset setup (lines 201-218) and the stdout/progress emissions of the
training phase (lines 244-276), as the ordered list of events one rank
performs. -/

inductive RunEvent where
  | downloadTrain : RunEvent
  | downloadTest : RunEvent
  | barrier : RunEvent
  | constructTrain : RunEvent
  | constructTest : RunEvent
  | progressInit : RunEvent
  | lossLine : ℕ → ℕ → RunEvent
  | progressUpdate : ℕ → ℕ → RunEvent
  | progressDesc : ℕ → ℕ → RunEvent
  | finishedLine : RunEvent
deriving DecidableEq

/-- Whether an event is a dataset download (materialization on disk). -/
def RunEvent.isDownload : RunEvent → Bool
  | RunEvent.downloadTrain => true
  | RunEvent.downloadTest => true
  | _ => false

/-- Dataset setup, lines 201-218: rank 0 downloads the train set, all
ranks join a barrier, all ranks construct the loaded train set (the
files now exist, so no further download happens); same for the test
set. -/
def datasetSetupEvents (rank : ℕ) : List RunEvent :=
  (if rank = 0 then [RunEvent.downloadTrain] else [])
    ++ [RunEvent.barrier, RunEvent.constructTrain]
    ++ (if rank = 0 then [RunEvent.downloadTest] else [])
    ++ [RunEvent.barrier, RunEvent.constructTest]

/-- Output emitted while processing batch i of an epoch (lines 267-274):
the running-loss line prints on every rank when i % 2000 == 1999; the
tqdm update and set_description emit only on rank 0, the bar being
constructed with disable = (rank != 0). -/
def batchOutput (rank epoch i : ℕ) : List RunEvent :=
  (if i % 2000 = 1999 then [RunEvent.lossLine epoch i] else [])
    ++ (if rank = 0 then [RunEvent.progressUpdate epoch i,
                          RunEvent.progressDesc epoch i] else [])

/-- All stdout/progress output of one rank over the whole run
(lines 244-276): the tqdm bar appears at construction on rank 0 only,
then every epoch processes every batch, and the final
print(Finished Training) runs unconditionally on every rank. -/
def runOutput (rank epochs steps : ℕ) : List RunEvent :=
  (if rank = 0 then [RunEvent.progressInit] else [])
    ++ ((List.range epochs).map (fun e =>
          ((List.range steps).map (fun i => batchOutput rank e i)).flatten)).flatten
    ++ [RunEvent.finishedLine]

/-- batch_size = 512 (line 199). -/
def batchSize : ℕ := 512

/-- The CIFAR-10 training set has 50000 examples. -/
def trainsetSize : ℕ := 50000

/-- len(trainloader): number of batches per epoch, with the default
drop_last = False of DataLoader. -/
def numTrainBatches : ℕ := (trainsetSize + batchSize - 1) / batchSize

/-- The script trains for 2 epochs (line 245). -/
def numEpochs : ℕ := 2

end Cifar10

namespace Cifar10

/-! Section: Theorems -/

theorem getD_map_of_lt {α β : Type} (f : α → β) (l : List α) {n : ℕ}
    (h : n < l.length) (d : β) (d0 : α) :
    (l.map f).getD n d = f (l.getD n d0) := by
  simp [List.getD, List.getElem?_map, List.getElem?_eq_getElem h]

theorem getD_map_range {β : Type} (g : ℕ → β) {n k : ℕ} (h : n < k) (d : β) :
    ((List.range k).map g).getD n d = g n := by
  simp [List.getD, List.getElem?_map, List.getElem?_range h]

theorem foldl_range_succ {β : Type} (g : β → ℕ → β) (x : β) (n : ℕ) :
    (List.range (n + 1)).foldl g x =
      (List.range n).foldl (fun y i => g y (i + 1)) (g x 0) := by
  simp [List.range_succ_eq_map, List.foldl_map, Nat.succ_eq_add_one]

theorem transformer_forward_eq_spec {V : Type} [AddCommMonoid V] :
    ∀ (as fs : List (PreNorm V)) (x : V), as.length = fs.length →
      Transformer.forward ⟨as, fs⟩ x = specTransformerForward (as.zip fs) x := by
  intro as
  induction as with
  | nil =>
    intro fs x _
    simp [Transformer.forward, specTransformerForward]
  | cons a as ih =>
    intro fs x h
    cases fs with
    | nil => simp at h
    | cons f fs =>
      have hlen : (Transformer.mk (a :: as) (f :: fs)).attentions.length
          = as.length + 1 := by simp
      have hstep : Transformer.forward ⟨a :: as, f :: fs⟩ x
          = (List.range as.length).foldl
              (fun y i =>
                let y1 := (as.getD i default).forward y + y
                (fs.getD i default).forward y1 + y1)
              (let y1 := a.forward x + x
               f.forward y1 + y1) := by
        simp only [Transformer.forward, hlen, foldl_range_succ,
          List.getD_cons_succ, List.getD_cons_zero]
      have hrec : Transformer.forward (V := V) ⟨as, fs⟩
            (let y1 := a.forward x + x
             f.forward y1 + y1)
          = (List.range as.length).foldl
              (fun y i =>
                let y1 := (as.getD i default).forward y + y
                (fs.getD i default).forward y1 + y1)
              (let y1 := a.forward x + x
               f.forward y1 + y1) := by
        simp only [Transformer.forward]
      have hcomm : (let y1 := a.forward x + x
                    f.forward y1 + y1) = specBlockStep a f x := by
        simp only [specBlockStep]
        rw [add_comm (a.forward x) x, add_comm (f.forward (x + a.forward x))]
      calc Transformer.forward ⟨a :: as, f :: fs⟩ x
          = Transformer.forward (V := V) ⟨as, fs⟩
              (let y1 := a.forward x + x
               f.forward y1 + y1) := by rw [hstep, hrec]
        _ = specTransformerForward (as.zip fs) (specBlockStep a f x) := by
              rw [hcomm]; exact ih fs _ (Nat.succ_injective h)
        _ = specTransformerForward ((a :: as).zip (f :: fs)) x := by
              simp [specTransformerForward]

/-- C1: in every Transformer forward pass the blocks execute strictly in
index order, block i computing x ← x + Attention_i(PreNorm(x)) and then
x ← x + FeedForward_i(PreNorm(x)); PreNorm applies only fn(norm(x)) and
the residual addition is performed by the caller, never inside PreNorm. -/
theorem C1_transformer_block_structure {V : Type} [AddCommMonoid V]
    (t : Transformer V) (x : V) (h : t.attentions.length = t.ffns.length) :
    (∀ (p : PreNorm V) (y : V), p.forward y = p.fn (p.norm y)) ∧
    t.forward x = specTransformerForward (t.attentions.zip t.ffns) x := by
  refine ⟨fun p y => rfl, ?_⟩
  obtain ⟨as, fs⟩ := t
  exact transformer_forward_eq_spec as fs x h

/-- Witness for C1 on an explicit two-module transformer and input. -/
theorem C1_transformer_block_structure_witness :
    sampleTransformer.attentions.length = sampleTransformer.ffns.length ∧
    ((∀ (p : PreNorm ℕ) (y : ℕ), p.forward y = p.fn (p.norm y)) ∧
     sampleTransformer.forward 3 =
       specTransformerForward (sampleTransformer.attentions.zip sampleTransformer.ffns) 3) :=
  ⟨rfl, C1_transformer_block_structure sampleTransformer 3 rfl⟩

/-- C2: on a well-formed [B, C, H, W] batch with H divisible by patch_h
and W divisible by patch_w, PatchEmbed.forward yields for every batch
element exactly (H/patch_h)*(W/patch_w) sequence positions, and position
n is obtained by applying the per-position sub-modules to the
(patch_h*patch_w*C)-value flattening of the single non-overlapping patch
(n / (W/patch_w), n % (W/patch_w)), whose entries are exactly the image
values of that patch in (p1, p2, c) order. -/
theorem C2_patch_embed_positions {α : Type} [Inhabited α] (pe : PatchEmbed α)
    (x : List (List (List (List α)))) (B C H W : ℕ)
    (hx : Shaped4 x B C H W) (hC : 0 < C) (hH : 0 < H)
    (hd1 : pe.patch_height ∣ H) (hd2 : pe.patch_width ∣ W) :
    (pe.forward x).length = B ∧
    ∀ b, b < B →
      ((pe.forward x).getD b []).length = H / pe.patch_height * (W / pe.patch_width) ∧
      ∀ n, n < H / pe.patch_height * (W / pe.patch_width) →
        ((pe.forward x).getD b []).getD n []
          = pe.post_normf (pe.proj (pe.pre_normf
              (flattenPatch pe.patch_height pe.patch_width (x.getD b [])
                (n / (W / pe.patch_width)) (n % (W / pe.patch_width))))) ∧
        (flattenPatch pe.patch_height pe.patch_width (x.getD b [])
            (n / (W / pe.patch_width)) (n % (W / pe.patch_width))).length
          = pe.patch_height * pe.patch_width * C ∧
        ∀ f, f < pe.patch_height * pe.patch_width * C →
          (flattenPatch pe.patch_height pe.patch_width (x.getD b [])
              (n / (W / pe.patch_width)) (n % (W / pe.patch_width))).getD f default
            = imageAt (x.getD b []) (f % C)
                (n / (W / pe.patch_width) * pe.patch_height + f / (C * pe.patch_width))
                (n % (W / pe.patch_width) * pe.patch_width + f / C % pe.patch_width) := by
  obtain ⟨hlen, hmem⟩ := hx
  constructor
  · simp [PatchEmbed.forward, patchRearrange, hlen]
  intro b hb
  have hb' : b < x.length := by rw [hlen]; exact hb
  have himg_mem : x.getD b [] ∈ x := by
    have hget : x.getD b [] = x[b] := by
      simp [List.getD, List.getElem?_eq_getElem hb']
    rw [hget]; exact List.getElem_mem hb'
  obtain ⟨hc, hch⟩ := hmem (x.getD b []) himg_mem
  have hHlen : ((x.getD b []).headD []).length = H := by
    cases hne : x.getD b [] with
    | nil => rw [hne] at hc; simp at hc; omega
    | cons ch0 rest =>
      have hch0 : ch0 ∈ x.getD b [] := by rw [hne]; exact List.mem_cons_self ch0 rest
      simpa using (hch ch0 hch0).1
  have hWlen : (((x.getD b []).headD []).headD []).length = W := by
    cases hne : x.getD b [] with
    | nil => rw [hne] at hc; simp at hc; omega
    | cons ch0 rest =>
      have hch0 : ch0 ∈ x.getD b [] := by rw [hne]; exact List.mem_cons_self ch0 rest
      obtain ⟨hH0, hrow⟩ := hch ch0 hch0
      cases hne2 : ch0 with
      | nil => rw [hne2] at hH0; simp at hH0; omega
      | cons r0 rrest =>
        have hr0 : r0 ∈ ch0 := by rw [hne2]; exact List.mem_cons_self r0 rrest
        simpa using hrow r0 hr0
  have hgd : (pe.forward x).getD b [] =
      ((List.range (H / pe.patch_height * (W / pe.patch_width))).map
        (fun n => flattenPatch pe.patch_height pe.patch_width (x.getD b [])
           (n / (W / pe.patch_width)) (n % (W / pe.patch_width)))).map
        (fun p => pe.post_normf (pe.proj (pe.pre_normf p))) := by
    unfold PatchEmbed.forward patchRearrange
    rw [List.map_map, getD_map_of_lt _ x hb' [] []]
    simp only [Function.comp_apply]
    rw [hHlen, hWlen]
  constructor
  · rw [hgd]; simp
  intro n hn
  refine ⟨?_, ?_, ?_⟩
  · rw [hgd, List.map_map, getD_map_range _ hn]
    rfl
  · unfold flattenPatch
    rw [List.length_map, List.length_range, hc]
  · intro f hf
    have hf' : f < pe.patch_height * pe.patch_width * (x.getD b []).length := by
      rw [hc]; exact hf
    unfold flattenPatch
    rw [getD_map_range _ hf', hc]

/-- Witness for C2: the one-image 3x32x32 batch with 4x4 patches yields
64 positions per image, each the image of the 48-value flattening of one
patch. -/
theorem C2_patch_embed_positions_witness :
    (Shaped4 sampleImageBatch 1 3 32 32 ∧ 0 < 3 ∧ 0 < 32 ∧ 4 ∣ 32) ∧
    ((samplePatchEmbed.forward sampleImageBatch).length = 1 ∧
     ∀ b, b < 1 →
       ((samplePatchEmbed.forward sampleImageBatch).getD b []).length = 32 / 4 * (32 / 4) ∧
       ∀ n, n < 32 / 4 * (32 / 4) →
         ((samplePatchEmbed.forward sampleImageBatch).getD b []).getD n []
           = samplePatchEmbed.post_normf (samplePatchEmbed.proj (samplePatchEmbed.pre_normf
               (flattenPatch 4 4 (sampleImageBatch.getD b [])
                 (n / (32 / 4)) (n % (32 / 4))))) ∧
         (flattenPatch 4 4 (sampleImageBatch.getD b [])
             (n / (32 / 4)) (n % (32 / 4))).length = 4 * 4 * 3 ∧
         ∀ f, f < 4 * 4 * 3 →
           (flattenPatch 4 4 (sampleImageBatch.getD b [])
               (n / (32 / 4)) (n % (32 / 4))).getD f default
             = imageAt (sampleImageBatch.getD b []) (f % 3)
                 (n / (32 / 4) * 4 + f / (3 * 4))
                 (n % (32 / 4) * 4 + f / 3 % 4)) :=
  ⟨⟨by decide, by decide, by decide, by decide⟩,
   C2_patch_embed_positions samplePatchEmbed sampleImageBatch 1 3 32 32
     (by decide) (by decide) (by decide) (by decide) (by decide)⟩

theorem except_bind_ok {ε α β : Type} (a : α) (f : α → Except ε β) :
    (Except.ok a).bind f = f a := rfl

theorem except_bind_error {ε α β : Type} (e : ε) (f : α → Except ε β) :
    (Except.error e).bind f = Except.error e := rfl

theorem broadcastLen_self (a : ℕ) : broadcastLen a a = a := by
  unfold broadcastLen; split_ifs <;> rfl

/-- C3: VIT.forward is exactly the composition patch_embed, then
broadcast addition of the positional embedding, then the transformer,
then the final normalisation, then the pooler, then the classification
projection; and at shape level, a valid [B, 3, H, W] input (H, W
multiples of patch_size, patch count matching the positional table)
produces output shape [B, num_classes]. -/
theorem C3_vit_forward_composition (nl hd hds mm : ℕ) (dr ed : ℚ)
    (nc ic ps imgsz B C H W : ℕ) (hC : C = 3) (hH : H % ps = 0) (hW : W % ps = 0)
    (hn : H / ps * (W / ps) = (imgsz / ps) ^ 2) :
    (∀ (α : Type) (_ : Add α) (m : VITModel α)
        (pv : List (List (List (List α)))),
      m.forward pv = m.proj_outf (m.poolerf (m.out_normf (m.transformerf
        (addBroadcast (m.patch_embedf pv) m.pos_embs))))) ∧
    vitForwardShape (mkVIT nl hd hds mm dr ed nc ic ps imgsz) B C H W
      = Except.ok (B, nc) := by
  refine ⟨fun α inst m pv => rfl, ?_⟩
  subst hC
  have h2 : ps * ps * 3 = 3 * ps * ps := by ring
  simp only [vitForwardShape, patchEmbedShape, mkVIT]
  rw [if_pos ⟨hH, hW⟩, if_pos h2, except_bind_ok]
  simp only []
  rw [if_pos (Or.inl hn), if_pos (Or.inl trivial), if_pos (broadcastLen_self _)]

/-- Witness for C3 on the script model (batch 512): the output shape is
[512, 10]. -/
theorem C3_vit_forward_composition_witness :
    ((3 : ℕ) = 3 ∧ 32 % 4 = 0 ∧ 32 % 4 = 0 ∧ 32 / 4 * (32 / 4) = (32 / 4) ^ 2) ∧
    ((∀ (α : Type) (_ : Add α) (m : VITModel α)
        (pv : List (List (List (List α)))),
      m.forward pv = m.proj_outf (m.poolerf (m.out_normf (m.transformerf
        (addBroadcast (m.patch_embedf pv) m.pos_embs))))) ∧
     vitForwardShape (mkVIT 8 64 8 4 (1 / 10) (1 / 10) 10 3 4 32) 512 3 32 32
       = Except.ok (512, 10)) :=
  ⟨⟨rfl, by decide, by decide, by decide⟩,
   C3_vit_forward_composition 8 64 8 4 (1 / 10) (1 / 10) 10 3 4 32 512 3 32 32
     rfl (by decide) (by decide) (by decide)⟩

/-- C7 counterexample: with the script model (patch 4, positional table
of 64 rows) a [1, 3, 4, 4] input yields a single patch, so its patch
count differs from the positional table, yet the forward pass succeeds
(the sequence axis of length 1 broadcasts) instead of failing with a
ShapeError as the claim demands. -/
theorem C7_counterexample_one_patch_input :
    vitForwardShape scriptVIT 1 3 4 4 = Except.ok (1, 10) ∧
    4 / scriptVIT.patch_embed.patch_h * (4 / scriptVIT.patch_embed.patch_w)
      ≠ scriptVIT.num_patches := by
  constructor
  · rfl
  · decide

/-- C7 amended: a Model forward call fails with a ShapeError exactly
when the height is not a multiple of patch_size, or the width is not,
or the flattened-patch width patch_size*patch_size*C differs from the
expected 3*patch_size*patch_size (channel mismatch), or the patch count
differs from the positional-embedding table with neither of the two
sequence lengths equal to 1 (either being 1 broadcasts silently). -/
theorem C7_amended_shape_error_iff (nl hd hds mm : ℕ) (dr ed : ℚ)
    (nc ic ps imgsz B C H W : ℕ) :
    isOkE (vitForwardShape (mkVIT nl hd hds mm dr ed nc ic ps imgsz) B C H W)
        = false ↔
    (H % ps ≠ 0 ∨ W % ps ≠ 0 ∨ ps * ps * C ≠ 3 * ps * ps ∨
      (H / ps * (W / ps) ≠ (imgsz / ps) ^ 2 ∧ H / ps * (W / ps) ≠ 1 ∧
        (imgsz / ps) ^ 2 ≠ 1)) := by
  simp only [vitForwardShape, patchEmbedShape, mkVIT]
  by_cases h1 : H % ps = 0 ∧ W % ps = 0
  · rw [if_pos h1]
    by_cases h2 : ps * ps * C = 3 * ps * ps
    · rw [if_pos h2, except_bind_ok]
      simp only []
      by_cases h3 : H / ps * (W / ps) = (imgsz / ps) ^ 2 ∨
          H / ps * (W / ps) = 1 ∨ (imgsz / ps) ^ 2 = 1
      · rw [if_pos h3, if_pos (Or.inl trivial), if_pos (broadcastLen_self _)]
        refine iff_of_false (by simp [isOkE]) ?_
        intro hr
        rcases hr with hr | hr | hr | hr
        · exact absurd h1.1 hr
        · exact absurd h1.2 hr
        · exact absurd h2 hr
        · rcases h3 with he | he | he
          · exact absurd he hr.1
          · exact absurd he hr.2.1
          · exact absurd he hr.2.2
      · rw [if_neg h3]
        refine iff_of_true rfl ?_
        push_neg at h3
        exact Or.inr (Or.inr (Or.inr ⟨h3.1, h3.2.1, h3.2.2⟩))
    · rw [if_neg h2]
      refine iff_of_true rfl ?_
      exact Or.inr (Or.inr (Or.inl h2))
  · rw [if_neg h1]
    refine iff_of_true rfl ?_
    rcases Decidable.not_and_iff_or_not.mp h1 with h | h
    · exact Or.inl h
    · exact Or.inr (Or.inl h)

/-- C10: the VIT constructor ignores in_channels (the patch embedding is
built with channels = 3 regardless) and emb_dropout (applied nowhere),
so two models differing only in those arguments are identical and their
forward passes agree on every input shape. -/
theorem C10_unused_constructor_args (nl hd hds mm : ℕ) (dr ed1 ed2 : ℚ)
    (nc ic1 ic2 ps imgsz : ℕ) :
    mkVIT nl hd hds mm dr ed1 nc ic1 ps imgsz
      = mkVIT nl hd hds mm dr ed2 nc ic2 ps imgsz ∧
    (mkVIT nl hd hds mm dr ed1 nc ic1 ps imgsz).patch_embed.channels = 3 ∧
    (∀ B C H W, vitForwardShape (mkVIT nl hd hds mm dr ed1 nc ic1 ps imgsz) B C H W
        = vitForwardShape (mkVIT nl hd hds mm dr ed2 nc ic2 ps imgsz) B C H W) :=
  ⟨rfl, rfl, fun _ _ _ _ => rfl⟩

/-- C4: the merged head outputs go through the learned output projection
exactly when not (heads == 1 and dim_head == dim), and in the excluded
configuration to_out is the identity function. -/
theorem C4_output_projection_config (dim heads dim_head : ℕ) (wqkv wout : Mat)
    (bout : Vec) :
    ((mkAttention dim heads dim_head wqkv wout bout).to_out ≠ none ↔
      ¬(heads = 1 ∧ dim_head = dim)) ∧
    ((heads = 1 ∧ dim_head = dim) →
      ∀ m : Mat,
        applyToOut (mkAttention dim heads dim_head wqkv wout bout).to_out m = m) := by
  have hto : (mkAttention dim heads dim_head wqkv wout bout).to_out
      = if !(heads == 1 && dim_head == dim) then some (wout, bout) else none := rfl
  constructor
  · rw [hto]
    by_cases h : heads = 1 ∧ dim_head = dim
    · simp [h.1, h.2]
    · have hb : (heads == 1 && dim_head == dim) = false := by
        rcases Decidable.not_and_iff_or_not.mp h with h2 | h2 <;> simp [h2]
      simp [hb, h]
  · intro h m
    have hnone : (mkAttention dim heads dim_head wqkv wout bout).to_out = none := by
      rw [hto]; simp [h.1, h.2]
    rw [hnone]
    rfl

/-- Witness for C4 at heads = 1, dim_head = dim = 2: the output
projection is the identity. -/
theorem C4_output_projection_config_witness :
    ((1 : ℕ) = 1 ∧ (2 : ℕ) = 2) ∧
    applyToOut (mkAttention 2 1 2 sampleId2 sampleId2 sampleBout).to_out
      [[1, 2]] = [[1, 2]] :=
  ⟨⟨rfl, rfl⟩,
   (C4_output_projection_config 2 1 2 sampleId2 sampleId2 sampleBout).2
     ⟨rfl, rfl⟩ [[1, 2]]⟩

theorem list_sum_map_div (l : List ℝ) (f : ℝ → ℝ) (s : ℝ) :
    (l.map (fun x => f x / s)).sum = (l.map f).sum / s := by
  simp only [div_eq_mul_inv]
  exact List.sum_map_mul_right l f s⁻¹

theorem exp_sum_pos (v : Vec) (hv : v ≠ []) : 0 < (v.map Real.exp).sum := by
  apply List.sum_pos
  · intro a ha
    obtain ⟨y, _, rfl⟩ := List.mem_map.mp ha
    exact Real.exp_pos y
  · simpa using hv

theorem softmax_sum_one (v : Vec) (hv : v ≠ []) : (softmax v).sum = 1 := by
  unfold softmax
  rw [list_sum_map_div]
  exact div_self (exp_sum_pos v hv).ne'

theorem kmat_length (a : Attention) (x : Mat) (h : ℕ) :
    (a.kmat x h).length = x.length := by
  simp [Attention.kmat, headSlice, linearNoBias]

theorem dots_row_length (a : Attention) (x : Mat) (h : ℕ) :
    ∀ row ∈ a.dots x h, row.length = x.length := by
  intro row hrow
  unfold Attention.dots matScale at hrow
  obtain ⟨r1, hr1, rfl⟩ := List.mem_map.mp hrow
  unfold matmulT at hr1
  obtain ⟨ar, _, rfl⟩ := List.mem_map.mp hr1
  simp [kmat_length]

/-- C5: in every Attention forward call the attention weights are the
row-wise softmax of (Q Kᵗ) * dim_head ^ (-1/2) taken along the key
axis, and (for a nonempty input sequence) every query position's weight
row sums to 1 over all key positions. -/
theorem C5_attention_weights_row_stochastic (dim heads dim_head : ℕ)
    (wqkv wout : Mat) (bout : Vec) (x : Mat) (hx : x ≠ []) :
    (∀ h, (mkAttention dim heads dim_head wqkv wout bout).attnWeights x h
        = (matScale
            (matmulT ((mkAttention dim heads dim_head wqkv wout bout).qmat x h)
              ((mkAttention dim heads dim_head wqkv wout bout).kmat x h))
            ((dim_head : ℝ) ^ (-(1 : ℝ) / 2))).map softmax) ∧
    (∀ h, ∀ row ∈ (mkAttention dim heads dim_head wqkv wout bout).attnWeights x h,
      row.sum = 1) := by
  constructor
  · intro h; rfl
  · intro h row hrow
    unfold Attention.attnWeights softmaxRows at hrow
    obtain ⟨r0, hr0, rfl⟩ := List.mem_map.mp hrow
    apply softmax_sum_one
    have hlen := dots_row_length (mkAttention dim heads dim_head wqkv wout bout) x h r0 hr0
    intro hempty
    rw [hempty] at hlen
    exact hx (List.eq_nil_of_length_eq_zero hlen.symm)

/-- Witness for C5 on a one-token sequence with a concrete 1-dim,
single-head attention. -/
theorem C5_attention_weights_row_stochastic_witness :
    ([[(1 : ℝ)]] ≠ ([] : Mat)) ∧
    ((∀ h, (mkAttention 1 1 1 sampleWqkv sampleWout sampleBout).attnWeights [[(1 : ℝ)]] h
        = (matScale
            (matmulT ((mkAttention 1 1 1 sampleWqkv sampleWout sampleBout).qmat [[(1 : ℝ)]] h)
              ((mkAttention 1 1 1 sampleWqkv sampleWout sampleBout).kmat [[(1 : ℝ)]] h))
            (((1 : ℕ) : ℝ) ^ (-(1 : ℝ) / 2))).map softmax) ∧
     (∀ h, ∀ row ∈ (mkAttention 1 1 1 sampleWqkv sampleWout sampleBout).attnWeights
         [[(1 : ℝ)]] h, row.sum = 1)) :=
  ⟨by simp,
   C5_attention_weights_row_stochastic 1 1 1 sampleWqkv sampleWout sampleBout
     [[(1 : ℝ)]] (by simp)⟩

theorem sum_map_exp_sub (v : Vec) (M : ℝ) :
    (v.map (fun y => Real.exp (y - M))).sum = (v.map Real.exp).sum / Real.exp M := by
  induction v with
  | nil => simp
  | cons a t ih =>
    rw [List.map_cons, List.sum_cons, ih, Real.exp_sub, List.map_cons,
      List.sum_cons, add_div]

theorem softmax_eq_softmaxStable (v : Vec) : softmax v = softmaxStable v := by
  unfold softmax softmaxStable
  apply List.map_congr_left
  intro x hx
  have hne : v ≠ [] := List.ne_nil_of_mem hx
  have hS : 0 < (v.map Real.exp).sum := exp_sum_pos v hne
  have hM : Real.exp (v.foldr max (v.headD 0)) ≠ 0 :=
    (Real.exp_pos (v.foldr max (v.headD 0))).ne'
  rw [sum_map_exp_sub, Real.exp_sub, div_div_div_comm,
    div_self hM, div_one]

/-- C6: the attention weights of every Attention forward call coincide
with the max-subtraction stabilised softmax of the scaled scores — the
maximum score of each row subtracted from the row before
exponentiation. -/
theorem C6_softmax_max_subtraction (a : Attention) (x : Mat) :
    ∀ h, a.attnWeights x h = (a.dots x h).map softmaxStable := by
  intro h
  unfold Attention.attnWeights softmaxRows
  exact List.map_congr_left (fun r _ => softmax_eq_softmaxStable r)

/-- C8: the fully_shard sequence wraps the attention blocks first (one
call per block, in order), then the feed-forward blocks (one call per
block, in order), and the whole model last, every call with
reshard_after_forward enabled. -/
theorem C8_sharding_wrap_order (nA nF : ℕ) :
    (∀ e ∈ shardingEvents nA nF, e.reshard_after_forward = true) ∧
    (shardingEvents nA nF).length = nA + nF + 1 ∧
    (shardingEvents nA nF).take nA
      = (List.range nA).map (fun i => ⟨WrapTarget.attn i, true⟩) ∧
    ((shardingEvents nA nF).drop nA).take nF
      = (List.range nF).map (fun i => ⟨WrapTarget.ffn i, true⟩) ∧
    (shardingEvents nA nF).getLast? = some ⟨WrapTarget.root, true⟩ := by
  refine ⟨?_, ?_, ?_, ?_, ?_⟩
  · intro e he
    unfold shardingEvents at he
    rcases List.mem_append.mp he with h | h
    · rcases List.mem_append.mp h with h2 | h2 <;>
        · obtain ⟨i, _, rfl⟩ := List.mem_map.mp h2; rfl
    · rw [List.mem_singleton.mp h]; rfl
  · simp [shardingEvents]; omega
  · unfold shardingEvents
    rw [List.append_assoc, List.take_left' (by simp)]
    rfl
  · unfold shardingEvents
    rw [List.append_assoc, List.drop_left' (by simp),
      List.take_left' (by simp)]
    rfl
  · unfold shardingEvents
    simp [fsdpReshardAfterForward]

/-- Witness for C8 with two blocks of each kind: the first wrap event
targets attention block 0 and has resharding enabled. -/
theorem C8_sharding_wrap_order_witness :
    ((⟨WrapTarget.attn 0, true⟩ : WrapEvent) ∈ shardingEvents 2 2) ∧
    (⟨WrapTarget.attn 0, true⟩ : WrapEvent).reshard_after_forward = true :=
  ⟨by decide, (C8_sharding_wrap_order 2 2).1 ⟨WrapTarget.attn 0, true⟩ (by decide)⟩

/-- C9 counterexample: the claim says a non-coordinating worker never
writes a log or progress line, but the final print(Finished Training) of
line 276 is unconditional, so rank 1 emits it too. -/
theorem C9_counterexample_final_print :
    runOutput 1 numEpochs numTrainBatches = [RunEvent.finishedLine] ∧
    RunEvent.finishedLine ∈ runOutput 1 numEpochs numTrainBatches ∧
    (1 : ℕ) ≠ 0 := by
  refine ⟨by decide, ?_, by decide⟩
  rw [(by decide : runOutput 1 numEpochs numTrainBatches = [RunEvent.finishedLine])]
  exact List.mem_singleton.mpr rfl

/-- C9 amended: during the whole run every non-coordinating rank emits
no log or progress output at all apart from the single unconditional
final completion line, dataset downloads are performed only by rank 0
and every rank joins the barrier that follows them; on rank 0 each
download precedes the corresponding barrier. -/
theorem C9_amended_rank0_only_output (rank : ℕ) (h : rank ≠ 0) :
    runOutput rank numEpochs numTrainBatches = [RunEvent.finishedLine] ∧
    (datasetSetupEvents rank).filter (fun e => e.isDownload) = [] ∧
    RunEvent.barrier ∈ datasetSetupEvents rank ∧
    datasetSetupEvents 0
      = [RunEvent.downloadTrain, RunEvent.barrier, RunEvent.constructTrain,
         RunEvent.downloadTest, RunEvent.barrier, RunEvent.constructTest] := by
  refine ⟨?_, ?_, ?_, by decide⟩
  · have hb : ∀ e i, batchOutput rank e i
        = if i % 2000 = 1999 then [RunEvent.lossLine e i] else [] := by
      intro e i
      unfold batchOutput
      rw [if_neg h, List.append_nil]
    unfold runOutput
    rw [if_neg h]
    simp only [hb]
    decide
  · unfold datasetSetupEvents
    rw [if_neg h, if_neg h]
    decide
  · unfold datasetSetupEvents
    rw [if_neg h, if_neg h]
    decide

/-- Witness for C9 amended at rank 1. -/
theorem C9_amended_rank0_only_output_witness :
    (1 : ℕ) ≠ 0 ∧
    (runOutput 1 numEpochs numTrainBatches = [RunEvent.finishedLine] ∧
     (datasetSetupEvents 1).filter (fun e => e.isDownload) = [] ∧
     RunEvent.barrier ∈ datasetSetupEvents 1 ∧
     datasetSetupEvents 0
       = [RunEvent.downloadTrain, RunEvent.barrier, RunEvent.constructTrain,
          RunEvent.downloadTest, RunEvent.barrier, RunEvent.constructTest]) :=
  ⟨by decide, C9_amended_rank0_only_output 1 (by decide)⟩

end Cifar10
